import Mathlib

/-!
# Change Management Dashboard — verification of the lifecycle & metrics engine

Shallow embedding of the core logic of `src/app/page.tsx`:
the stage registry (`STAGES`, `stageInfo`, `progressPct`), the variance
helper, the filter pipeline (`view`), the record classifiers
(`pcrToCoRows`, `completedRows`, `computeSummary`), the project KPI
computation (`ProjectKPIs`) and the CSV serializer (`buildCSV`).

Strings stay strings (JavaScript values are untyped at runtime: the demo
seed holds `target` values outside the declared union), optional fields
become `Option`, monetary amounts become `Int` and the KPI arithmetic is
carried out in `ℚ`.  `Math.round` is embedded as `⌊x + 1/2⌋`, its exact
behaviour on non-tie and tie values alike.
-/

namespace Dashboard

/-- JavaScript `Math.round`: round half toward positive infinity. -/
def jsRound (x : ℚ) : ℤ := ⌊x + 1/2⌋

/-- One entry of the `STAGES` lifecycle table. -/
structure StageDef where
  order : Nat
  key : String
  name : String
  short : String
  slaDays : Nat
  color : String
  deriving Repr, DecidableEq

/-- `reviewList` entries. -/
structure Reviewer where
  role : String
  name : String
  date : Option String
  decision : Option String
  deriving Repr, DecidableEq

/-- `signatureList` entries. -/
structure Signer where
  role : String
  name : String
  date : Option String
  signed : Option Bool
  deriving Repr, DecidableEq

/-- `links` entries. -/
structure LinkItem where
  label : String
  href : String
  deriving Repr, DecidableEq

/-- The central `ChangeRecord` entity of `page.tsx`.  Monetary amounts are
integers (AED); all enumerated fields are runtime strings. -/
structure ChangeRecord where
  id : String
  type : String
  package : String
  title : String
  estimated : Option Int := none
  actual : Option Int := none
  stageKey : String
  subStatus : Option String := none
  stageStartDate : String
  overallStartDate : String
  outcome : Option String := none
  target : Option String := none
  sponsor : Option String := none
  reviewList : List Reviewer := []
  signatureList : List Signer := []
  links : List LinkItem := []
  prcTarget : Option String := none
  deriving Repr, DecidableEq

/-- The static `STAGES` lifecycle table of `page.tsx`. -/
def STAGES : List StageDef :=
  [ { order := 1, key := "PRC", name := "PRC", short := "PRC",
      slaDays := 5, color := "bg-sky-100 text-sky-900" },
    { order := 2, key := "CC_OUTCOME", name := "CC Outcome", short := "CC",
      slaDays := 3, color := "bg-indigo-100 text-indigo-900" },
    { order := 3, key := "CEO_OR_BOARD_MEMO", name := "CEO / Board Memo",
      short := "CEO/Board", slaDays := 2, color := "bg-purple-100 text-purple-900" },
    { order := 4, key := "EI", name := "EI", short := "EI",
      slaDays := 2, color := "bg-amber-100 text-amber-900" },
    { order := 5, key := "CO_V_VOS", name := "CO/V/VOS", short := "CO/V/VOS",
      slaDays := 7, color := "bg-emerald-100 text-emerald-900" },
    { order := 6, key := "AA_SA", name := "AA/SA", short := "AA/SA",
      slaDays := 0, color := "bg-gray-200 text-gray-900" } ]

/-- The six stage keys in lifecycle order. -/
def stageKeys : List String :=
  ["PRC", "CC_OUTCOME", "CEO_OR_BOARD_MEMO", "EI", "CO_V_VOS", "AA_SA"]

/-- `stageInfo(key)`: look the key up in `STAGES`; on a miss return the
synthetic placeholder stage of the source (order 0, slaDays 0). -/
def stageInfo (key : String) : StageDef :=
  match STAGES.find? (fun x => x.key == key) with
  | some s => s
  | none =>
      { order := 0, key := key, name := key, short := key,
        slaDays := 0, color := "bg-gray-200 text-gray-900" }

/-- The placeholder `StageDef` used as an out-of-range default. -/
def dummyStage : StageDef :=
  { order := 0, key := "", name := "", short := "", slaDays := 0, color := "" }

/-- `STAGES[STAGES.length - 1].order`, the divisor of `progressPct`. -/
def lastStageOrder : Nat := (STAGES.getLastD dummyStage).order

/-- `progressPct(key) = Math.round((stageInfo(key).order / lastOrder) * 100)`. -/
def progressPct (key : String) : ℤ :=
  jsRound (((stageInfo key).order : ℚ) / (lastStageOrder : ℚ) * 100)

/-- `variance(estimated, actual)`: `null` unless both operands are numbers,
else `actual - estimated`. -/
def variance (estimated actual : Option Int) : Option Int :=
  match estimated, actual with
  | some e, some a => some (a - e)
  | _, _ => none

/-- Character-wise lower casing: the embedding of JavaScript
`String.prototype.toLowerCase` (the records hold ASCII label text). -/
def strLower (s : String) : String := ⟨s.data.map Char.toLower⟩

/-- `hay.includes(pat)`: `pat` occurs contiguously in `hay`. -/
def strContains (hay pat : String) : Bool :=
  hay.data.tails.any (fun t => pat.data.isPrefixOf t)

/-- The three-stage filter of the main component: stage key (wildcard
`"All"`), package (wildcard `"All"`), then the free-text search over
`` `${r.id} ${r.title} ${r.sponsor ?? ""}` `` lower-cased (skipped when the
query is empty/falsy), exactly as the chained `.filter` calls of `view`. -/
def viewOf (rows : List ChangeRecord) (stage pkg q : String) : List ChangeRecord :=
  ((rows.filter (fun r => if stage = "All" then true else r.stageKey == stage)).filter
      (fun r => if pkg = "All" then true else r.package == pkg)).filter
    (fun r =>
      if q = "" then true
      else strContains (strLower (r.id ++ " " ++ r.title ++ " " ++ r.sponsor.getD ""))
        (strLower q))

/-- `view.filter((r) => r.type === "PRC")`. -/
def pcrRows (view : List ChangeRecord) : List ChangeRecord :=
  view.filter (fun r => r.type == "PRC")

/-- `pcrRows.filter((r) => r.target === "EI")`. -/
def pcrToEiRows (view : List ChangeRecord) : List ChangeRecord :=
  (pcrRows view).filter (fun r => r.target == some "EI")

/-- `pcrRows.filter((r) => r.target === "CO")` — the rows of the
"PCRs → CO / V / VOS / AA-SA" table (Table 2). -/
def pcrToCoRows (view : List ChangeRecord) : List ChangeRecord :=
  (pcrRows view).filter (fun r => r.target == some "CO")

/-- The completion predicate shared by `completedRows` and
`computeSummary`: EI issued (or to be issued), or CO/V/VOS or AA/SA done. -/
def isCompleted (r : ChangeRecord) : Bool :=
  (r.stageKey == "EI" &&
      (r.subStatus == some "Issued" || r.subStatus == some "To be Issued to Contractor")) ||
    ((r.stageKey == "CO_V_VOS" && r.subStatus == some "Done") ||
      (r.stageKey == "AA_SA" && r.subStatus == some "Done"))

/-- `completedRows` (Table 3): the completed subset of the view. -/
def completedRows (view : List ChangeRecord) : List ChangeRecord :=
  view.filter isCompleted

/-- Result of `computeSummary`. -/
structure Summary where
  total : Nat
  pcrToEI : Nat
  pcrToCO : Nat
  completed : Nat
  deriving Repr, DecidableEq

/-- `computeSummary(rows)` of the summary card. -/
def computeSummary (rows : List ChangeRecord) : Summary :=
  let pcrs := rows.filter (fun r => r.type == "PRC")
  { total := rows.length
    pcrToEI := (pcrs.filter (fun r => r.target == some "EI")).length
    pcrToCO := (pcrs.filter (fun r => r.target == some "CO")).length
    completed := (rows.filter isCompleted).length }

/-- `TOTAL_PROJECT_VALUE` of `ProjectKPIs` (demo: AED 500M). -/
def TOTAL_PROJECT_VALUE : ℚ := 500000000

/-- `LIMIT_PERCENT` of `ProjectKPIs` (max 10% threshold). -/
def LIMIT_PERCENT : ℚ := 10

/-- The values computed inside `ProjectKPIs`.  `changePercentDisplayNum` is
the display value `changePercent.toFixed(2)` scaled to hundredths. -/
structure KPIs where
  totalProjectValue : ℚ
  totalApprovedValue : ℚ
  changePercent : ℚ
  changePercentDisplayNum : ℤ
  limitValue : ℚ
  approvedVsLimitPct : ℚ
  percentVsLimitPct : ℚ

/-- The KPI computation of `ProjectKPIs` over the current view: filter the
approved rows carrying an actual, sum their actuals, and derive the ratio
figures; a JavaScript falsy (zero) denominator short-circuits to 0. -/
def projectKPIs (rows : List ChangeRecord) : KPIs :=
  let approvedRows := rows.filter
    (fun r => r.outcome == some "Approved" && r.actual.isSome)
  let totalApprovedValue : ℚ :=
    approvedRows.foldl (fun s r => s + ((r.actual.getD 0 : ℤ) : ℚ)) 0
  let changeRatio : ℚ :=
    if TOTAL_PROJECT_VALUE = 0 then 0 else totalApprovedValue / TOTAL_PROJECT_VALUE
  let changePercent := changeRatio * 100
  let limitValue := TOTAL_PROJECT_VALUE * (LIMIT_PERCENT / 100)
  let approvedVsLimitPct : ℚ :=
    if limitValue = 0 then 0
    else min 100 (max 0 (totalApprovedValue / limitValue * 100))
  let percentVsLimitPct : ℚ :=
    if LIMIT_PERCENT = 0 then 0
    else min 100 (max 0 (changePercent / LIMIT_PERCENT * 100))
  { totalProjectValue := TOTAL_PROJECT_VALUE
    totalApprovedValue := totalApprovedValue
    changePercent := changePercent
    changePercentDisplayNum := jsRound (changePercent * 100)
    limitValue := limitValue
    approvedVsLimitPct := approvedVsLimitPct
    percentVsLimitPct := percentVsLimitPct }

/-! ### CSV serializer -/

/-- `Math.round(x / d)` for integer `x` and positive integer `d`, expressed
with floor division so that it evaluates inside the kernel;
`jsRoundRatio_eq` proves it equal to `jsRound (x / d)`. -/
def jsRoundRatio (x d : ℤ) : ℤ := Int.fdiv (2 * x + d) (2 * d)

/-- `daysBetween(startIso)` with the host clock abstracted: `parse` stands
for `Date` parsing to epoch milliseconds and `now` for the current epoch
milliseconds.  An empty (falsy) start string yields 0; otherwise the
millisecond difference is rounded to days and clamped at 0. -/
def daysBetween (parse : String → ℤ) (now : ℤ) (startIso : String) : ℤ :=
  if startIso = "" then 0
  else max (jsRoundRatio (now - parse startIso) (24 * 3600 * 1000)) 0

/-- JavaScript `Array.prototype.join(sep)` on a list of strings. -/
def jsJoin (sep : String) : List String → String
  | [] => ""
  | [x] => x
  | x :: y :: xs => x ++ sep ++ jsJoin sep (y :: xs)

/-- An `Option Int` cell of the CSV body: `v ?? ""` under `join`'s
stringification — the number's decimal form, or the empty string. -/
def optIntStr : Option Int → String
  | none => ""
  | some n => toString n

/-- `'"' + r.title.replaceAll('"', '""') + '"'` — the quoted `safeTitle`. -/
def safeTitle (title : String) : String :=
  "\"" ++ (⟨title.data.flatMap (fun ch => if ch = '"' then ['"', '"'] else [ch])⟩ : String)
    ++ "\""

/-- The `headers` array of `buildCSV`. -/
def headers : List String :=
  ["ID", "Type", "Package", "Title", "Estimated", "Actual", "Variance", "Stage",
    "SubStatus", "PRCTarget", "Sponsor", "DaysInStage", "OverallDays"]

/-- The 13 cells of one CSV body row, in `buildCSV` order. -/
def csvFields (parse : String → ℤ) (now : ℤ) (r : ChangeRecord) : List String :=
  [ r.id,
    r.type,
    r.package,
    safeTitle r.title,
    optIntStr r.estimated,
    optIntStr r.actual,
    optIntStr (variance r.estimated r.actual),
    (stageInfo r.stageKey).name,
    r.subStatus.getD "",
    r.prcTarget.getD "",
    r.sponsor.getD "",
    toString (daysBetween parse now r.stageStartDate),
    toString (daysBetween parse now r.overallStartDate) ]

/-- One CSV body line: the 13 cells joined with commas. -/
def recordLine (parse : String → ℤ) (now : ℤ) (r : ChangeRecord) : String :=
  jsJoin "," (csvFields parse now r)

/-- `headers.join(",")`. -/
def headerLine : String := jsJoin "," headers

/-- `buildCSV(rows)`: header line then one line per row, joined with a
single newline and no trailing newline. -/
def buildCSV (parse : String → ℤ) (now : ℤ) (rows : List ChangeRecord) : String :=
  jsJoin "\n" (headerLine :: rows.map (recordLine parse now))

/-- Split a character list at every occurrence of the separator, keeping
empty segments — the semantics of JavaScript `String.prototype.split` with
a single-character separator. -/
def splitSep (c : Char) : List Char → List (List Char)
  | [] => [[]]
  | x :: xs =>
      let r := splitSep c xs
      if x = c then [] :: r
      else
        match r with
        | [] => [[x]]
        | y :: ys => (x :: y) :: ys

/-- String-level `s.split(c)`. -/
def splitOnChar (c : Char) (s : String) : List String :=
  (splitSep c s.data).map (fun l => (⟨l⟩ : String))

/-! ### Helper lemmas -/

lemma lastStageOrder_eq : lastStageOrder = 6 := rfl

lemma jsRound_eval {x : ℚ} {z : ℤ} (h1 : (z : ℚ) ≤ x + 1/2) (h2 : x + 1/2 < z + 1) :
    jsRound x = z := by
  rw [jsRound, Int.floor_eq_iff]
  exact ⟨h1, h2⟩

lemma progressPct_val_PRC : progressPct "PRC" = 17 := by
  show jsRound (((1 : ℕ) : ℚ) / ((6 : ℕ) : ℚ) * 100) = 17
  exact jsRound_eval (by norm_num) (by norm_num)

lemma progressPct_val_CC : progressPct "CC_OUTCOME" = 33 := by
  show jsRound (((2 : ℕ) : ℚ) / ((6 : ℕ) : ℚ) * 100) = 33
  exact jsRound_eval (by norm_num) (by norm_num)

lemma progressPct_val_CEO : progressPct "CEO_OR_BOARD_MEMO" = 50 := by
  show jsRound (((3 : ℕ) : ℚ) / ((6 : ℕ) : ℚ) * 100) = 50
  exact jsRound_eval (by norm_num) (by norm_num)

lemma progressPct_val_EI : progressPct "EI" = 67 := by
  show jsRound (((4 : ℕ) : ℚ) / ((6 : ℕ) : ℚ) * 100) = 67
  exact jsRound_eval (by norm_num) (by norm_num)

lemma progressPct_val_CO : progressPct "CO_V_VOS" = 83 := by
  show jsRound (((5 : ℕ) : ℚ) / ((6 : ℕ) : ℚ) * 100) = 83
  exact jsRound_eval (by norm_num) (by norm_num)

lemma progressPct_val_AA : progressPct "AA_SA" = 100 := by
  show jsRound (((6 : ℕ) : ℚ) / ((6 : ℕ) : ℚ) * 100) = 100
  exact jsRound_eval (by norm_num) (by norm_num)

lemma progressPct_formula (k : String) :
    progressPct k = jsRound (100 * ((stageInfo k).order : ℚ) / 6) := by
  unfold progressPct
  congr 1
  have h : ((lastStageOrder : ℕ) : ℚ) = 6 := by rw [lastStageOrder_eq]; norm_num
  rw [h]
  ring

/-- The synthetic placeholder stage that `stageInfo` builds for an
unknown key. -/
def placeholderStage (key : String) : StageDef :=
  { order := 0, key := key, name := key, short := key,
    slaDays := 0, color := "bg-gray-200 text-gray-900" }

/-- The spec-side completion condition, as C2 words it. -/
def claimCompleted (r : ChangeRecord) : Prop :=
  (r.stageKey = "EI" ∧
      (r.subStatus = some "Issued" ∨ r.subStatus = some "To be Issued to Contractor"))
    ∨ ((r.stageKey = "CO_V_VOS" ∨ r.stageKey = "AA_SA") ∧ r.subStatus = some "Done")

/-- Scenario record of C2: stage EI, sub-status "Issued". -/
def eiIssuedRec : ChangeRecord :=
  { id := "EI-X-001", type := "EI", package := "A", title := "Scenario record",
    stageKey := "EI", subStatus := some "Issued",
    stageStartDate := "2025-01-01", overallStartDate := "2025-01-01" }

/-- The same record with sub-status "In Preparation". -/
def eiInPrepRec : ChangeRecord :=
  { eiIssuedRec with subStatus := some "In Preparation" }

/-! ### Claim theorems (stage registry and classifiers) -/

/-- C1: for each of the six stage keys, `progressPct` equals
`round(100 × order / 6)`; over the six stages in lifecycle order the
values 17, 33, 50, 67, 83, 100 are strictly increasing, the first (PRC)
is ≥ 17 and the last (AA_SA) is 100. -/
theorem progressPct_spec :
    lastStageOrder = 6
    ∧ (∀ k : String, progressPct k = jsRound (100 * ((stageInfo k).order : ℚ) / 6))
    ∧ progressPct "PRC" = 17
    ∧ progressPct "CC_OUTCOME" = 33
    ∧ progressPct "CEO_OR_BOARD_MEMO" = 50
    ∧ progressPct "EI" = 67
    ∧ progressPct "CO_V_VOS" = 83
    ∧ progressPct "AA_SA" = 100
    ∧ List.Chain' (· < ·) (stageKeys.map progressPct)
    ∧ 17 ≤ progressPct "PRC" := by
  refine ⟨rfl, progressPct_formula, progressPct_val_PRC, progressPct_val_CC,
    progressPct_val_CEO, progressPct_val_EI, progressPct_val_CO, progressPct_val_AA,
    ?_, ?_⟩
  · simp only [stageKeys, List.map_cons, List.map_nil, List.chain'_cons,
      List.chain'_singleton, progressPct_val_PRC, progressPct_val_CC,
      progressPct_val_CEO, progressPct_val_EI, progressPct_val_CO, progressPct_val_AA]
    norm_num
  · rw [progressPct_val_PRC]

/-- C10: any stage key outside the six defined keys yields the synthetic
placeholder stage with order 0 and slaDays 0, so its progress is 0,
strictly below the progress of every valid stage (the first real stage
reporting 17). -/
theorem stageInfo_unknown_spec (key : String) (h : key ∉ stageKeys) :
    stageInfo key = placeholderStage key
      ∧ (stageInfo key).order = 0
      ∧ (stageInfo key).slaDays = 0
      ∧ progressPct key = 0
      ∧ progressPct "PRC" = 17
      ∧ ∀ k ∈ stageKeys, progressPct key < progressPct k := by
  simp only [stageKeys, List.mem_cons, List.mem_singleton, not_or] at h
  obtain ⟨h1, h2, h3, h4, h5, h6, -⟩ := h
  have hfind : STAGES.find? (fun x => x.key == key) = none := by
    rw [List.find?_eq_none]
    intro x hx
    simp only [STAGES, List.mem_cons, List.not_mem_nil, or_false] at hx
    rcases hx with rfl | rfl | rfl | rfl | rfl | rfl <;>
      simp [beq_iff_eq] <;>
      [exact fun e => h1 e.symm; exact fun e => h2 e.symm; exact fun e => h3 e.symm;
        exact fun e => h4 e.symm; exact fun e => h5 e.symm; exact fun e => h6 e.symm]
  have hsi : stageInfo key = placeholderStage key := by
    unfold stageInfo placeholderStage
    rw [hfind]
  have hzero : progressPct key = 0 := by
    rw [progressPct_formula, hsi]
    simp only [placeholderStage]
    exact jsRound_eval (by norm_num) (by norm_num)
  refine ⟨hsi, by simp [hsi, placeholderStage], by simp [hsi, placeholderStage],
    hzero, progressPct_val_PRC, ?_⟩
  intro k hk
  rw [hzero]
  fin_cases hk
  · rw [progressPct_val_PRC]; norm_num
  · rw [progressPct_val_CC]; norm_num
  · rw [progressPct_val_CEO]; norm_num
  · rw [progressPct_val_EI]; norm_num
  · rw [progressPct_val_CO]; norm_num
  · rw [progressPct_val_AA]; norm_num

/-- Witness for C10 at the concrete unknown key "BOGUS". -/
theorem stageInfo_unknown_spec_witness :
    "BOGUS" ∉ stageKeys ∧ progressPct "BOGUS" = 0 :=
  ⟨by decide, (stageInfo_unknown_spec "BOGUS" (by decide)).2.2.2.1⟩

/-- C2: a record is in the Completed set of a view iff it is in the view
and satisfies the claimed completion condition (EI issued / to be issued,
or CO_V_VOS / AA_SA done); `computeSummary`'s completed count agrees, and
the EI/"Issued" scenario record is completed while the same record with
sub-status "In Preparation" is not. -/
theorem completed_spec :
    (∀ (view : List ChangeRecord) (r : ChangeRecord),
      r ∈ completedRows view ↔ r ∈ view ∧ claimCompleted r)
    ∧ (∀ rows : List ChangeRecord,
        (computeSummary rows).completed = (completedRows rows).length)
    ∧ eiIssuedRec ∈ completedRows [eiIssuedRec]
    ∧ eiInPrepRec ∉ completedRows [eiInPrepRec] := by
  refine ⟨?_, fun rows => rfl, by decide, by decide⟩
  intro view r
  simp only [completedRows, List.mem_filter, isCompleted, claimCompleted,
    Bool.or_eq_true, Bool.and_eq_true, beq_iff_eq]
  tauto

/-- C4: the variance is null iff an operand is missing; on two present
operands it is exactly `actual − estimated`, as in the 2,000,000 /
1,850,000 → −150,000 example. -/
theorem variance_spec :
    (∀ e a : Option Int, variance e a = none ↔ e = none ∨ a = none)
    ∧ (∀ e a : Int, variance (some e) (some a) = some (a - e))
    ∧ variance (some 2000000) (some 1850000) = some (-150000) := by
  refine ⟨?_, fun e a => rfl, by decide⟩
  intro e a
  cases e <;> cases a <;> simp [variance]

/-! ### C3: the PCR-to-other pipeline bucket -/

/-- Demo record PCR-G-017 of the "PCRs → CO / V / VOS / AA-SA (Table 2)"
seed section: type PRC with target "VOS". -/
def pcrG017 : ChangeRecord :=
  { id := "PCR-G-017", type := "PRC", package := "G",
    title := "Trackside Fencing Optimization (PCR)",
    estimated := some 1100000, actual := some 1050000,
    stageKey := "CO_V_VOS", subStatus := some "Under Review",
    stageStartDate := "2026-02-10", overallStartDate := "2026-02-01",
    target := some "VOS", sponsor := some "Track Engineering Manager" }

/-- Demo record PCR-E-024 of the same seed section: type PRC with
target "AA". -/
def pcrE024 : ChangeRecord :=
  { id := "PCR-E-024", type := "PRC", package := "E",
    title := "Maintenance Yard Gate Relocation (PCR)",
    estimated := some 600000, actual := some 590000,
    stageKey := "AA_SA", subStatus := some "In Approval",
    stageStartDate := "2026-02-11", overallStartDate := "2026-02-02",
    target := some "AA", sponsor := some "Assets Manager – Eng. Hamad Al-Hinai" }

/-- C3: `pcrToCoRows` accepts only `target === "CO"`, so the seeded
Table-2 records with target "VOS" (PCR-G-017) and "AA" (PCR-E-024) — PRC
records the claim places in the "PCRs → CO / V / VOS / AA-SA" bucket —
are excluded from it. -/
theorem pcrToCo_excludes_vos_aa :
    (∀ view : List ChangeRecord,
      pcrToCoRows view = view.filter (fun r => r.type == "PRC" && r.target == some "CO"))
    ∧ pcrG017.type = "PRC" ∧ pcrG017.target = some "VOS"
    ∧ pcrToCoRows [pcrG017] = []
    ∧ pcrE024.type = "PRC" ∧ pcrE024.target = some "AA"
    ∧ pcrToCoRows [pcrE024] = [] := by
  refine ⟨?_, rfl, rfl, by decide, rfl, rfl, by decide⟩
  intro view
  rw [pcrToCoRows, pcrRows, List.filter_filter]
  exact List.filter_congr fun x _ => Bool.and_comm _ _

/-! ### C5 and C6: the filter pipeline -/

/-- C5's view-membership condition read literally: stage wildcard or
equality, package wildcard or equality, and the lower-cased search text an
infix of the lower-cased concatenation of id, title and sponsor. -/
def claimViewPred (stage pkg q : String) (r : ChangeRecord) : Prop :=
  (stage = "All" ∨ r.stageKey = stage) ∧ (pkg = "All" ∨ r.package = pkg) ∧
    (strLower q).data <:+: (strLower (r.id ++ r.title ++ r.sponsor.getD "")).data

instance (stage pkg q : String) (r : ChangeRecord) :
    Decidable (claimViewPred stage pkg q r) := by
  unfold claimViewPred
  infer_instance

/-- C5's condition with the code's actual haystack: the three fields are
joined with single spaces, not plainly concatenated. -/
def claimViewPredSpaced (stage pkg q : String) (r : ChangeRecord) : Prop :=
  (stage = "All" ∨ r.stageKey = stage) ∧ (pkg = "All" ∨ r.package = pkg) ∧
    (strLower q).data <:+:
      (strLower (r.id ++ " " ++ r.title ++ " " ++ r.sponsor.getD "")).data

instance (stage pkg q : String) (r : ChangeRecord) :
    Decidable (claimViewPredSpaced stage pkg q r) := by
  unfold claimViewPredSpaced
  infer_instance

/-- A record whose id "x" and title "y" concatenate to "xy" but are
searched by the code as "x y ". -/
def cexViewRec : ChangeRecord :=
  { id := "x", type := "CO", package := "A", title := "y", stageKey := "EI",
    stageStartDate := "2025-01-01", overallStartDate := "2025-01-01" }

lemma strContains_iff (hay pat : String) :
    strContains hay pat = true ↔ pat.data <:+: hay.data := by
  simp only [strContains, List.any_eq_true, List.mem_tails,
    List.isPrefixOf_iff_prefix, List.infix_iff_prefix_suffix]
  exact ⟨fun ⟨t, ht, hp⟩ => ⟨t, hp, ht⟩, fun ⟨t, hp, ht⟩ => ⟨t, ht, hp⟩⟩

lemma strContains_eq (hay pat : String) :
    strContains hay pat = decide (pat.data <:+: hay.data) := by
  by_cases h : pat.data <:+: hay.data
  · simp [h, (strContains_iff hay pat).mpr h]
  · simp only [h, decide_False]
    by_contra hne
    exact h ((strContains_iff hay pat).mp (by revert hne; cases strContains hay pat <;> simp))

lemma str_beq_eq (a b : String) : (a == b) = decide (a = b) := by
  by_cases h : a = b <;> simp [h]

/-- The collapsed form of the three chained filters of `view`. -/
lemma viewOf_eq_filter (rows : List ChangeRecord) (stage pkg q : String) :
    viewOf rows stage pkg q
      = rows.filter (fun r => decide (claimViewPredSpaced stage pkg q r)) := by
  rw [viewOf, List.filter_filter, List.filter_filter]
  refine List.filter_congr fun r _ => ?_
  simp only [claimViewPredSpaced, Bool.decide_and]
  by_cases hs : stage = "All" <;> by_cases hp : pkg = "All" <;> by_cases hq : q = "" <;>
    simp [hs, hp, hq, strContains_eq, strLower, str_beq_eq, Bool.and_comm, Bool.and_assoc,
      Bool.and_left_comm]

/-- C5 counterexample: with the haystack read as the plain concatenation
"xy" the claim admits `cexViewRec` for search text "xy", but the code's
haystack is "x y " and the view comes out empty. -/
theorem view_concat_counterexample :
    viewOf [cexViewRec] "All" "All" "xy" = []
    ∧ claimViewPred "All" "All" "xy" cexViewRec
    ∧ ¬ viewOf [cexViewRec] "All" "All" "xy"
        = [cexViewRec].filter (fun r => decide (claimViewPred "All" "All" "xy" r)) := by
  refine ⟨by decide, by decide, ?_⟩
  intro h
  rw [show [cexViewRec].filter (fun r => decide (claimViewPred "All" "All" "xy" r))
      = [cexViewRec] from by decide] at h
  rw [show viewOf [cexViewRec] "All" "All" "xy" = [] from by decide] at h
  exact List.cons_ne_nil _ _ h.symm

/-- C5 (amended): the view is exactly the records passing the conjunction
of stage wildcard/equality, package wildcard/equality, and the
case-insensitive substring match of the search text against id, title and
sponsor joined with single spaces (missing sponsor as the empty string);
it is a sublist of the input, so original relative order is preserved. -/
theorem view_spec :
    ∀ (rows : List ChangeRecord) (stage pkg q : String),
      viewOf rows stage pkg q
          = rows.filter (fun r => decide (claimViewPredSpaced stage pkg q r))
        ∧ (viewOf rows stage pkg q).Sublist rows := by
  intro rows stage pkg q
  refine ⟨viewOf_eq_filter rows stage pkg q, ?_⟩
  rw [viewOf_eq_filter]
  exact List.filter_sublist rows

/-- C6: applying the view filter to its own output with the same stage,
package and search text returns the identical list. -/
theorem view_idempotent :
    ∀ (rows : List ChangeRecord) (stage pkg q : String),
      viewOf (viewOf rows stage pkg q) stage pkg q = viewOf rows stage pkg q := by
  intro rows stage pkg q
  rw [viewOf_eq_filter, viewOf_eq_filter, List.filter_filter]
  simp only [Bool.and_self]

/-! ### C7 and C8: CSV serialization -/

lemma splitSep_of_not_mem {c : Char} {xs : List Char} (h : c ∉ xs) :
    splitSep c xs = [xs] := by
  induction xs with
  | nil => rfl
  | cons x xs ih =>
      rw [List.mem_cons, not_or] at h
      simp only [splitSep, ih h.2]
      rw [if_neg fun e => h.1 e.symm]

lemma splitSep_append {c : Char} {xs : List Char} (ys : List Char) (h : c ∉ xs) :
    splitSep c (xs ++ c :: ys) = xs :: splitSep c ys := by
  induction xs with
  | nil => simp [splitSep]
  | cons x xs ih =>
      rw [List.mem_cons, not_or] at h
      simp only [List.cons_append, splitSep]
      rw [if_neg fun e => h.1 e.symm]
      simp only [List.append_eq]
      rw [ih h.2]

lemma jsJoin_singleton_data {c : Char} (ps : List String) (hne : ps ≠ [])
    (h : ∀ p ∈ ps, c ∉ p.data) :
    splitSep c (jsJoin (String.singleton c) ps).data = ps.map (fun p => p.data) := by
  induction ps with
  | nil => exact absurd rfl hne
  | cons p ps ih =>
      cases ps with
      | nil => exact splitSep_of_not_mem (h p (List.mem_singleton_self p))
      | cons q qs =>
          have hdata : (jsJoin (String.singleton c) (p :: q :: qs)).data
              = p.data ++ c :: (jsJoin (String.singleton c) (q :: qs)).data := by
            show ((p ++ String.singleton c) ++ jsJoin (String.singleton c) (q :: qs)).data = _
            rw [String.data_append, String.data_append]
            simp [String.singleton]
          rw [hdata, splitSep_append _ (h p (List.mem_cons_self p _)),
            ih (List.cons_ne_nil q qs) (fun x hx => h x (List.mem_cons_of_mem p hx))]
          rfl

lemma splitOnChar_jsJoin {c : Char} (ps : List String) (hne : ps ≠ [])
    (h : ∀ p ∈ ps, c ∉ p.data) :
    splitOnChar c (jsJoin (String.singleton c) ps) = ps := by
  rw [splitOnChar, jsJoin_singleton_data ps hne h, List.map_map]
  exact List.map_id ps

lemma not_mem_jsJoin_data {c : Char} {sep : String} (hc : c ∉ sep.data)
    (ps : List String) (h : ∀ p ∈ ps, c ∉ p.data) :
    c ∉ (jsJoin sep ps).data := by
  induction ps with
  | nil => simp [jsJoin]
  | cons p ps ih =>
      cases ps with
      | nil => exact h p (List.mem_singleton_self p)
      | cons q qs =>
          show c ∉ ((p ++ sep) ++ jsJoin sep (q :: qs)).data
          rw [String.data_append, String.data_append]
          simp only [List.mem_append, not_or]
          exact ⟨⟨h p (List.mem_cons_self p _), hc⟩,
            ih fun x hx => h x (List.mem_cons_of_mem p hx)⟩

lemma newline_string_eq : "\n" = String.singleton '\n' := rfl

/-- C7: `buildCSV` is the header line followed by one line per record in
view order, joined by single newlines with no trailing newline; the
header's comma-split is exactly the 13 documented column names; when no
cell contains a newline the output splits into exactly N+1 lines; and the
estimated, actual, and variance cells of a record missing the operand are
the empty string. -/
theorem buildCSV_spec :
    ∀ (parse : String → ℤ) (now : ℤ) (rows : List ChangeRecord),
      buildCSV parse now rows
          = jsJoin "\n" (headerLine :: rows.map (recordLine parse now))
        ∧ splitOnChar ',' headerLine = headers
        ∧ headers.length = 13
        ∧ ((∀ r ∈ rows, ∀ f ∈ csvFields parse now r, '\n' ∉ f.data) →
            splitOnChar '\n' (buildCSV parse now rows)
                = headerLine :: rows.map (recordLine parse now)
              ∧ (splitOnChar '\n' (buildCSV parse now rows)).length = rows.length + 1)
        ∧ (∀ r : ChangeRecord, r.estimated = none →
            (csvFields parse now r)[4]? = some "")
        ∧ (∀ r : ChangeRecord, r.actual = none →
            (csvFields parse now r)[5]? = some "")
        ∧ (∀ r : ChangeRecord, r.estimated = none ∨ r.actual = none →
            (csvFields parse now r)[6]? = some "") := by
  intro parse now rows
  refine ⟨rfl, by decide, rfl, ?_, ?_, ?_, ?_⟩
  · intro H
    have hsplit : splitOnChar '\n' (buildCSV parse now rows)
        = headerLine :: rows.map (recordLine parse now) := by
      rw [buildCSV, newline_string_eq]
      refine splitOnChar_jsJoin _ (List.cons_ne_nil _ _) ?_
      intro l hl
      rcases List.mem_cons.mp hl with rfl | hl
      · decide
      · obtain ⟨r, hr, rfl⟩ := List.mem_map.mp hl
        exact not_mem_jsJoin_data (by decide) _ (H r hr)
    exact ⟨hsplit, by rw [hsplit]; simp⟩
  · intro r h
    simp [csvFields, h, optIntStr]
  · intro r h
    simp [csvFields, h, optIntStr]
  · intro r h
    rcases h with h | h
    · cases ha : r.actual <;> simp [csvFields, variance, h, ha, optIntStr]
    · cases he : r.estimated <;> simp [csvFields, variance, h, he, optIntStr]

/-- The record used to witness C7's newline-free hypothesis: its
estimated, actual (and hence variance) cells are absent. -/
def csvWitnessRec : ChangeRecord :=
  { id := "CO-W-001", type := "CO", package := "A", title := "Witness row",
    stageKey := "EI", subStatus := some "Issued",
    stageStartDate := "2025-01-01", overallStartDate := "2025-01-01" }

/-- Witness for C7 at a concrete record, parse function and clock. -/
theorem buildCSV_spec_witness :
    (∀ r ∈ [csvWitnessRec], ∀ f ∈ csvFields (fun _ => 0) 0 r, '\n' ∉ f.data)
    ∧ csvWitnessRec.estimated = none
    ∧ csvWitnessRec.actual = none
    ∧ (splitOnChar '\n' (buildCSV (fun _ => 0) 0 [csvWitnessRec])).length = 1 + 1
    ∧ (csvFields (fun _ => 0) 0 csvWitnessRec)[4]? = some ""
    ∧ (csvFields (fun _ => 0) 0 csvWitnessRec)[5]? = some ""
    ∧ (csvFields (fun _ => 0) 0 csvWitnessRec)[6]? = some "" := by
  have h : ∀ r ∈ [csvWitnessRec], ∀ f ∈ csvFields (fun _ => 0) 0 r, '\n' ∉ f.data := by
    decide
  exact ⟨h, rfl, rfl,
    ((buildCSV_spec (fun _ => 0) 0 [csvWitnessRec]).2.2.2.1 h).2,
    (buildCSV_spec (fun _ => 0) 0 [csvWitnessRec]).2.2.2.2.1 csvWitnessRec rfl,
    (buildCSV_spec (fun _ => 0) 0 [csvWitnessRec]).2.2.2.2.2.1 csvWitnessRec rfl,
    (buildCSV_spec (fun _ => 0) 0 [csvWitnessRec]).2.2.2.2.2.2 csvWitnessRec (Or.inl rfl)⟩

/-- A record whose sponsor text contains a comma, breaking the unquoted
sponsor cell. -/
def commaSponsorRec : ChangeRecord :=
  { id := "CO-B-009", type := "CO", package := "B", title := "Drainage works",
    stageKey := "CO_V_VOS", subStatus := some "Done",
    stageStartDate := "2025-10-01", overallStartDate := "2025-09-05",
    sponsor := some "Assets Manager, Eng. Hamad" }

/-- C8: the Title cell is always the double-quoted title with embedded
quotes doubled, the Sponsor cell is the raw sponsor text, and a record
whose sponsor contains a comma yields a data row whose comma-split has 14
fields — more than the 13 columns. -/
theorem csv_quoting_spec :
    (∀ (parse : String → ℤ) (now : ℤ) (r : ChangeRecord),
      (csvFields parse now r)[3]? = some (safeTitle r.title)
      ∧ (csvFields parse now r)[10]? = some (r.sponsor.getD ""))
    ∧ safeTitle "a\"b" = "\"a\"\"b\""
    ∧ commaSponsorRec.sponsor = some "Assets Manager, Eng. Hamad"
    ∧ (splitOnChar ',' (recordLine (fun _ => 0) 0 commaSponsorRec)).length = 14
    ∧ 13 < (splitOnChar ',' (recordLine (fun _ => 0) 0 commaSponsorRec)).length := by
  refine ⟨fun parse now r => ⟨rfl, rfl⟩, by decide, rfl, by decide, ?_⟩
  rw [show (splitOnChar ',' (recordLine (fun _ => 0) 0 commaSponsorRec)).length = 14
    from by decide]
  norm_num

/-! ### C9: project KPIs -/

/-- The approved sum as C9 words it: the sum of `actual` over the records
whose outcome is Approved and whose actual is present. -/
def claimApprovedSum (rows : List ChangeRecord) : ℤ :=
  (rows.filterMap (fun r => if r.outcome = some "Approved" then r.actual else none)).sum

lemma foldl_add_eq (f : ChangeRecord → ℚ) :
    ∀ (l : List ChangeRecord) (c : ℚ), l.foldl (fun s r => s + f r) c = c + (l.map f).sum := by
  intro l
  induction l with
  | nil => intro c; simp
  | cons x xs ih =>
      intro c
      rw [List.foldl_cons, ih (c + f x), List.map_cons, List.sum_cons]
      ring

lemma approvedSum_int (rows : List ChangeRecord) :
    ((rows.filter (fun r => r.outcome == some "Approved" && r.actual.isSome)).map
        (fun r => r.actual.getD 0)).sum = claimApprovedSum rows := by
  induction rows with
  | nil => rfl
  | cons r rows ih =>
      have ih2 : ((rows.filter (fun r => r.outcome == some "Approved" && r.actual.isSome)).map
          (fun r => r.actual.getD 0)).sum = (rows.filterMap
            (fun r => if r.outcome = some "Approved" then r.actual else none)).sum := by
        simpa [claimApprovedSum] using ih
      by_cases ho : r.outcome = some "Approved"
      · cases ha : r.actual with
        | none =>
            simp [claimApprovedSum, List.filter_cons, List.filterMap_cons, ho, ha, ih2]
        | some a =>
            simp [claimApprovedSum, List.filter_cons, List.filterMap_cons, ho, ha, ih2]
      · simp [claimApprovedSum, List.filter_cons, List.filterMap_cons, ho, ih2]

lemma approvedSum_rat (rows : List ChangeRecord) :
    ((rows.filter (fun r => r.outcome == some "Approved" && r.actual.isSome)).map
        (fun r => ((r.actual.getD 0 : ℤ) : ℚ))).sum = ((claimApprovedSum rows : ℤ) : ℚ) := by
  have h := map_list_sum (Int.castRingHom ℚ)
    ((rows.filter (fun r => r.outcome == some "Approved" && r.actual.isSome)).map
      (fun r => r.actual.getD 0))
  rw [List.map_map] at h
  rw [← approvedSum_int rows]
  exact h.symm

/-- A record approved at AED 1,000,000,000 actual — twice the project
value, driving the raw change percent to 200. -/
def bigApprovedRec : ChangeRecord :=
  { id := "CO-BIG-001", type := "CO", package := "A",
    title := "Large approved change",
    estimated := some 900000000, actual := some 1000000000,
    stageKey := "AA_SA", subStatus := some "Done", outcome := some "Approved",
    stageStartDate := "2025-01-01", overallStartDate := "2025-01-01" }

/-- The C9 scenario record: approved with actual AED 1,850,000. -/
def approved185Rec : ChangeRecord :=
  { id := "CO-G-032", type := "CO", package := "G",
    title := "Scenario change order",
    estimated := some 2000000, actual := some 1850000,
    stageKey := "CO_V_VOS", subStatus := some "Done", outcome := some "Approved",
    stageStartDate := "2025-01-01", overallStartDate := "2025-01-01" }

/-- C9: the approved sum is the sum of `actual` over Approved records with
an actual; `changePercent = 100 × approvedActualSum / totalProjectValue`;
the percent-of-limit bar value is `min(100, max(0, 100 × changePercent /
limitPercent))`, hence always within [0, 100]; the raw change percent is
unclamped and exceeds 100 on a large enough approved sum; and the
1,850,000 / 500,000,000 scenario gives change percent 0.37, displayed as
"0.37" at two decimals. -/
theorem projectKPIs_spec :
    (∀ rows : List ChangeRecord,
      (projectKPIs rows).totalApprovedValue = ((claimApprovedSum rows : ℤ) : ℚ)
      ∧ (projectKPIs rows).changePercent
          = 100 * (projectKPIs rows).totalApprovedValue / TOTAL_PROJECT_VALUE
      ∧ (projectKPIs rows).percentVsLimitPct
          = min 100 (max 0 (100 * (projectKPIs rows).changePercent / LIMIT_PERCENT))
      ∧ 0 ≤ (projectKPIs rows).percentVsLimitPct
      ∧ (projectKPIs rows).percentVsLimitPct ≤ 100)
    ∧ 100 < (projectKPIs [bigApprovedRec]).changePercent
    ∧ (projectKPIs [approved185Rec]).changePercent = 37 / 100
    ∧ (projectKPIs [approved185Rec]).changePercentDisplayNum = 37 := by
  have hTPV : (TOTAL_PROJECT_VALUE : ℚ) ≠ 0 := by norm_num [TOTAL_PROJECT_VALUE]
  have hLIM : (LIMIT_PERCENT : ℚ) ≠ 0 := by norm_num [LIMIT_PERCENT]
  have hfields : ∀ rows : List ChangeRecord,
      (projectKPIs rows).totalApprovedValue
          = ((rows.filter (fun r => r.outcome == some "Approved" && r.actual.isSome)).map
              (fun r => ((r.actual.getD 0 : ℤ) : ℚ))).sum
        ∧ (projectKPIs rows).changePercent
            = (projectKPIs rows).totalApprovedValue / TOTAL_PROJECT_VALUE * 100
        ∧ (projectKPIs rows).percentVsLimitPct
            = min 100 (max 0 ((projectKPIs rows).changePercent / LIMIT_PERCENT * 100)) := by
    intro rows
    refine ⟨?_, ?_, ?_⟩
    · simp only [projectKPIs]
      rw [foldl_add_eq]
      simp
    · simp only [projectKPIs]
      rw [if_neg hTPV]
    · simp only [projectKPIs]
      rw [if_neg hLIM]
  refine ⟨?_, ?_, ?_, ?_⟩
  · intro rows
    obtain ⟨h1, h2, h3⟩ := hfields rows
    have hsum : (projectKPIs rows).totalApprovedValue = ((claimApprovedSum rows : ℤ) : ℚ) := by
      rw [h1]
      exact approvedSum_rat rows
    refine ⟨hsum, by rw [h2]; ring, by rw [h3]; ring_nf, ?_, ?_⟩
    · rw [h3]
      exact le_min (by norm_num) (le_max_left 0 _)
    · rw [h3]
      exact min_le_left 100 _
  · have h := (hfields [bigApprovedRec]).2.1
    have h1 := (hfields [bigApprovedRec]).1
    rw [h, h1]
    norm_num [bigApprovedRec, TOTAL_PROJECT_VALUE]
  · have h := (hfields [approved185Rec]).2.1
    have h1 := (hfields [approved185Rec]).1
    rw [h, h1]
    norm_num [approved185Rec, TOTAL_PROJECT_VALUE]
  · show jsRound ((projectKPIs [approved185Rec]).changePercent * 100) = 37
    have h := (hfields [approved185Rec]).2.1
    have h1 := (hfields [approved185Rec]).1
    rw [h, h1]
    have : ((([approved185Rec].filter
        (fun r => r.outcome == some "Approved" && r.actual.isSome)).map
          (fun r => ((r.actual.getD 0 : ℤ) : ℚ))).sum / TOTAL_PROJECT_VALUE * 100) * 100
        = 37 := by
      norm_num [approved185Rec, TOTAL_PROJECT_VALUE]
    rw [this]
    exact jsRound_eval (by norm_num) (by norm_num)

end Dashboard
